import Mathlib

/-!
Shallow embedding of `src/score_record_splitter.py` (dusk-scores-splitter).

Bytes are modelled as `Nat` (each concrete input byte is < 256), byte strings
as `List Nat`.  Python exceptions are modelled by the `PyError` type below;
the class hierarchy matters because the main loop catches `ValueError`, and
`UnicodeDecodeError` is a subclass of `ValueError` in Python.
-/

namespace Dusk

abbrev Byte := Nat

/-- Model of the Python exceptions that the source can raise.
`unicodeDecodeError` is a subclass of `ValueError` in Python, which is
reflected by `PyError.isValueError` below.  `nameError` also stands for
`UnboundLocalError` (a `NameError` subclass). -/
inductive PyError where
  | valueError (msg : String)
  | unicodeDecodeError
  | indexError
  | nameError
  | structError
deriving Repr, DecidableEq

/-- Which exceptions an `except ValueError:` handler catches: `ValueError`
itself and its subclass `UnicodeDecodeError`. -/
def PyError.isValueError : PyError → Bool
  | .valueError _ => true
  | .unicodeDecodeError => true
  | _ => false

/-- Whether a byte is a UTF-8 continuation byte (`0x80..0xBF`). -/
def isCont (b : Byte) : Bool := 0x80 ≤ b && b < 0xC0

/-- Strict UTF-8 decoding of a byte sequence into a list of characters,
modelling Python `bytes.decode("utf-8")`: rejects lone continuation bytes,
overlong encodings, surrogates and code points above `U+10FFFF`.  Returns
`none` where Python raises `UnicodeDecodeError`. -/
def utf8DecodeChars : List Byte → Option (List Char)
  | [] => some []
  | b :: rest =>
    if b < 0x80 then
      (utf8DecodeChars rest).map (fun cs => Char.ofNat b :: cs)
    else if b < 0xC2 then none
    else if b < 0xE0 then
      match rest with
      | b1 :: rest2 =>
        if isCont b1 then
          (utf8DecodeChars rest2).map
            (fun cs => Char.ofNat ((b % 32) * 64 + b1 % 64) :: cs)
        else none
      | [] => none
    else if b < 0xF0 then
      match rest with
      | b1 :: b2 :: rest3 =>
        if isCont b1 && isCont b2 && (b ≠ 0xE0 || 0xA0 ≤ b1) && (b ≠ 0xED || b1 < 0xA0) then
          (utf8DecodeChars rest3).map
            (fun cs => Char.ofNat ((b % 16) * 4096 + (b1 % 64) * 64 + b2 % 64) :: cs)
        else none
      | _ => none
    else if b ≤ 0xF4 then
      match rest with
      | b1 :: b2 :: b3 :: rest4 =>
        if isCont b1 && isCont b2 && isCont b3 && (b ≠ 0xF0 || 0x90 ≤ b1) && (b ≠ 0xF4 || b1 < 0x90) then
          (utf8DecodeChars rest4).map
            (fun cs => Char.ofNat ((b % 8) * 262144 + (b1 % 64) * 4096 + (b2 % 64) * 64 + b3 % 64) :: cs)
        else none
      | _ => none
    else none

/-- Model of the Python expression `raw.rstrip` with argument `b"\x7b"`: remove every trailing `0x7B`
(end-marker) byte. -/
def rstripBrace (l : List Byte) : List Byte :=
  (l.reverse.dropWhile (fun b => b == 0x7b)).reverse

/-- Model of the digit-run loop
`for i, c in enumerate(identifier): if not c.isdecimal(): break` from
`ScoreRecord.__init__`: the final value of the loop variable `i`.  For a
nonempty list this is the index of the first non-digit character, or
`length - 1` when every character is a digit (the loop runs to the end
without breaking, leaving `i` at the last index).  Characters outside ASCII
never occur in the identifiers of interest, so `isdecimal` is modelled as
`Char.isDigit`. -/
def pyDigitRunIdx : List Char → Nat
  | [] => 0
  | [_] => 0
  | c :: rest => if c.isDigit then pyDigitRunIdx rest + 1 else 0

/-- Little-endian interpretation of a byte sequence as a natural number,
modelling `int.from_bytes` with little-endian byte order. -/
def leBytesToNat : List Byte → Nat
  | [] => 0
  | b :: rest => b + 256 * leBytesToNat rest

/-- Model of Python `int(s)` restricted to the strings the program can feed
it (level ids, which are runs of ASCII decimal digits, possibly empty):
`some` of the decimal value for a nonempty digit string, `none` (a
`ValueError` in Python) otherwise. -/
def pyInt (s : String) : Option Nat :=
  if s.data ≠ [] ∧ s.data.all Char.isDigit then
    some (s.data.foldl (fun acc c => acc * 10 + (c.toNat - 48)) 0)
  else none

/-- The tagged value of a record: `float` keeps the 32 raw bits read from
the wire (via `struct.unpack` with format `<f`), `int` the little-endian unsigned
value, `str` the decoded string. -/
inductive Value where
  | int (n : Nat)
  | float (bits : Nat)
  | str (s : String)
deriving Repr, DecidableEq

/-- The string payload of a `Value.str`; the program only reads it on
string-typed records. -/
def Value.strVal : Value → String
  | .str s => s
  | _ => ""

/-- Interpretation of an IEEE-754 binary32 bit pattern as a rational number
(`none` for infinities and NaNs). -/
def f32ValOfBits (bits : Nat) : Option ℚ :=
  let sign : Nat := bits / 2 ^ 31
  let expo : Nat := bits / 2 ^ 23 % 256
  let frac : Nat := bits % 2 ^ 23
  if expo = 255 then none
  else
    let mag : ℚ := if expo = 0 then (frac : ℚ) * 2 / 2 ^ 150
                   else ((2 : ℚ) ^ 23 + (frac : ℚ)) * 2 ^ expo / 2 ^ 150
    some (if sign = 1 then -mag else mag)

/-- Decoded record, mirroring the attributes set by `ScoreRecord.__init__`. -/
structure ScoreRecord where
  raw : List Byte
  level : String
  label : String
  rest : List Byte
  val_type : String
  value : Value
  mid_chunk : List Byte
deriving Repr, DecidableEq

/-- The message of the `ValueError` raised for a frame without a trailing
end-marker byte (the `IncompleteFrame` signal). -/
def incompleteMsg : String := "Found a record without the record end byte?"

/-- The message of the `ValueError` raised by `Level.add_record` for a
second name record. -/
def duplicateNameMsg : String := "tried to add multiple name records to Level"

/-- The message of the `ValueError` raised by `int()` on a non-numeric
string. -/
def intParseMsg : String := "invalid literal for int() with base 10"

/-- Value decode of `ScoreRecord.__init__` (lines 119-135), dispatched on
the label.  `raw0` is the frame as passed to the constructor (before the
start marker is re-prepended), `rest` the bytes after the identifier field.
In the name branch, a length mismatch evaluates the f-string
`f"String length value {lenvalue} ..."`, whose misspelt `lenvalue` raises
an unbound-variable `NameError`. -/
def decodeValue (raw0 : List Byte) (level label : String) (rest : List Byte) :
    Except PyError ScoreRecord :=
  if label = "seconds" ∨ label = "minutes" then
    if (rest.drop (rest.length - 4)).length = 4 then
      .ok { raw := 0x7e :: raw0, level, label, rest, val_type := "float",
            value := .float (leBytesToNat (rest.drop (rest.length - 4))),
            mid_chunk := rest.take 9 }
    else .error .structError
  else if label = "name" then
    match rest.get? 9 with
    | none => .error .indexError
    | some lenValue =>
      match utf8DecodeChars ((rest.drop 10).take lenValue) with
      | none => .error .unicodeDecodeError
      | some chars =>
        if chars.length ≠ lenValue then .error .nameError
        else .ok { raw := 0x7e :: raw0, level, label, rest, val_type := "string",
                   value := .str (String.mk chars), mid_chunk := rest.take 9 }
  else
    if label = "levelbeaten" then
      match pyInt level with
      | none => .error (.valueError intParseMsg)
      | some _ =>
        .ok { raw := 0x7e :: raw0, level, label, rest, val_type := "int",
              value := .int (leBytesToNat (rest.drop (rest.length - 4))),
              mid_chunk := rest.take 9 }
    else
      .ok { raw := 0x7e :: raw0, level, label, rest, val_type := "int",
            value := .int (leBytesToNat (rest.drop (rest.length - 4))),
            mid_chunk := rest.take 9 }

/-- Identifier parse and level/label split of `ScoreRecord.__init__`
(lines 108-116), applied to the end-marker-stripped frame.  An empty
stripped frame makes `raw[0]` raise `IndexError`; an identifier that is not
valid UTF-8 raises `UnicodeDecodeError`; an empty identifier leaves the
loop variable `i` unbound so that `identifier[0:i]` raises a `NameError`
(`UnboundLocalError`). -/
def decodeStripped (raw0 stripped : List Byte) : Except PyError ScoreRecord :=
  match stripped with
  | [] => .error .indexError
  | identifierLen :: tail =>
    match utf8DecodeChars (tail.take identifierLen) with
    | none => .error .unicodeDecodeError
    | some identChars =>
      if identChars = [] then .error .nameError
      else
        decodeValue raw0 (String.mk (identChars.take (pyDigitRunIdx identChars)))
          (String.mk (identChars.drop (pyDigitRunIdx identChars)))
          (stripped.drop (1 + identifierLen))

/-- Model of `ScoreRecord.__init__`: strip trailing end markers, fail with
the recoverable `ValueError` when none was present, then parse. -/
def scoreRecordInit (raw0 : List Byte) : Except PyError ScoreRecord :=
  if rstripBrace raw0 = raw0 then .error (.valueError incompleteMsg)
  else decodeStripped raw0 (rstripBrace raw0)

/-- Model of the `Level` class: per-level record list (insertion order),
and the designated name value once a name record has been added. -/
structure Level where
  id : String
  scores : List ScoreRecord
  name : Option Value
deriving Repr, DecidableEq

/-- Model of `Level.__init__`. -/
def Level.ofRecord (record : ScoreRecord) : Level :=
  { id := record.level, scores := [record],
    name := if record.label = "name" then some record.value else none }

/-- Model of `Level.add_record`.  The record is appended to `scores`
before the duplicate-name check, so on the error path the level keeps the
freshly appended record; the raised `ValueError` is returned alongside the
mutated level. -/
def Level.add_record (l : Level) (record : ScoreRecord) : Level × Option PyError :=
  let l1 := { l with scores := l.scores ++ [record] }
  if record.label = "name" then
    if l.name.isSome then (l1, some (.valueError duplicateNameMsg))
    else ({ l1 with name := some record.value }, none)
  else (l1, none)

/-- Model of `Level.get_name`. -/
def Level.get_name (l : Level) : Value := l.name.getD (.str "???")

/-- Model of the `Scores` class: an insertion-ordered association list from
level id to `Level`, mirroring a Python dict. -/
structure Scores where
  levels : List (String × Level)
deriving Repr, DecidableEq

/-- Model of `Scores.add_record`.  As in Python, the `Level` object is
mutated in place, so on the error path of `Level.add_record` the updated level
stays in the store and the error is reported alongside. -/
def Scores.add_record (s : Scores) (record : ScoreRecord) : Scores × Option PyError :=
  match s.levels.find? (fun p => p.1 == record.level) with
  | some p =>
    let updated := p.2.add_record record
    (⟨s.levels.map (fun q => if q.1 = record.level then (q.1, updated.1) else q)⟩, updated.2)
  | none => (⟨s.levels ++ [(record.level, Level.ofRecord record)]⟩, none)

/-- The comparison realized by the key function `lambda x: int(x.id)`
that `Scores.__sorted_levels` passes to `sorted`, on successfully parsed ids. -/
def levelLe (a b : Level) : Bool :=
  decide ((pyInt a.id).getD 0 ≤ (pyInt b.id).getD 0)

/-- Model of `Scores.__sorted_levels`: sort the levels (in dict insertion
order) by the integer value of their id with a stable sort.  The Python
function `int` raises `ValueError` on a non-numeric id during sorting; this is
modelled as an upfront check over all ids. -/
def Scores.sorted_levels (s : Scores) : Except PyError (List Level) :=
  let vals := s.levels.map Prod.snd
  if vals.all (fun lv => (pyInt lv.id).isSome) then
    .ok (vals.mergeSort levelLe)
  else .error (.valueError intParseMsg)

/-- Model of `Scores.get_levels`. -/
def Scores.get_levels (s : Scores) : Except PyError (List Level) :=
  s.sorted_levels

/-- The state threaded through the `__main__` loop: the resynchronization
buffer `recordbuff` and the accumulated `scores`. -/
structure RunState where
  recordbuff : List Byte
  scores : Scores
deriving Repr, DecidableEq

/-- The initial `__main__` state: empty buffer, empty store. -/
def initState : RunState := ⟨[], ⟨[]⟩⟩

/-- One iteration of the `__main__` loop (lines 224-235) on the next
candidate frame: merge the pending buffer, try to decode and add the
record, and on any `ValueError` (including `UnicodeDecodeError` and the
duplicate-name error from `add_record`) extend the buffer with the merged
bytes.  Note `recordbuff` was reset before `add_record` runs, so on
the error path of `add_record` the buffer becomes exactly the merged frame,
while on a decode failure it becomes `recordbuff ++ (recordbuff ++ frame)`.
Errors outside `ValueError` abort the whole run. -/
def mainStep (st : RunState) (frame : List Byte) : Except PyError RunState :=
  let raw := if st.recordbuff.isEmpty then frame else st.recordbuff ++ frame
  match scoreRecordInit raw with
  | .ok record =>
    let added := st.scores.add_record record
    match added.2 with
    | none => .ok ⟨[], added.1⟩
    | some e => if e.isValueError then .ok ⟨raw, added.1⟩ else .error e
  | .error e =>
    if e.isValueError then .ok ⟨st.recordbuff ++ raw, st.scores⟩ else .error e

/-- The `__main__` processing pass over the candidate frames produced by
`split_scores` (the Resynchronizer): fold `mainStep`, aborting on the
first uncaught exception. -/
def processFrames (frames : List (List Byte)) (st : RunState) : Except PyError RunState :=
  match frames with
  | [] => .ok st
  | f :: rest =>
    match mainStep st f with
    | .ok st1 => processFrames rest st1
    | .error e => .error e

/-- Byte length of the value segment in `ScoreRecord.detail_breakdown`:
4 for numeric records, UTF-8 byte length of the string plus 1 for string
records (the explicit `raw_len` values of `parsed_end`). -/
def ScoreRecord.valueSegLen (r : ScoreRecord) : Nat :=
  if r.val_type = "float" ∨ r.val_type = "int" then 4
  else r.value.strVal.utf8ByteSize + 1

/-- The `accounted_for` total of `ScoreRecord.detail_breakdown`: the sum of
all segment lengths after resolving the `-1` placeholders (start marker,
type marker, level text, label text, value region, end marker). -/
def ScoreRecord.accountedFor (r : ScoreRecord) : Nat :=
  1 + 1 + r.level.utf8ByteSize + r.label.utf8ByteSize + r.valueSegLen + 1

/-- The segment byte lengths produced by `ScoreRecord.detail_breakdown`, in
order: the `parsed_start` segments (with the unaccounted question-mark segment
appended when `accounted_for < len(raw)`) followed by the `parsed_end`
segments. -/
def ScoreRecord.detailSegLens (r : ScoreRecord) : List Nat :=
  (if r.accountedFor < r.raw.length
   then [1, 1, r.level.utf8ByteSize, r.label.utf8ByteSize, r.raw.length - r.accountedFor]
   else [1, 1, r.level.utf8ByteSize, r.label.utf8ByteSize])
  ++ [r.valueSegLen, 1]

/-! Concrete frames and records used to settle the claims -/

/-- A name frame for level 1 whose string value `"a~b"` contains the
start-marker byte `0x7E`: identifier length 5, identifier `"1name"`,
9 filler bytes, length byte 3, value bytes `a ~ b`, one trailing byte
`X`, end marker. -/
def c1FrameS : List Byte :=
  [0x05, 0x31, 0x6e, 0x61, 0x6d, 0x65, 0, 0, 0, 0, 0, 0, 0, 0, 0,
   0x03, 0x61, 0x7e, 0x62, 0x58, 0x7b]

/-- The part of `c1FrameS` before its embedded start-marker byte. -/
def c1FrameA : List Byte :=
  [0x05, 0x31, 0x6e, 0x61, 0x6d, 0x65, 0, 0, 0, 0, 0, 0, 0, 0, 0, 0x03, 0x61]

/-- The part of `c1FrameS` after its embedded start-marker byte. -/
def c1FrameB : List Byte := [0x62, 0x58, 0x7b]

/-- The record obtained by decoding `c1FrameS` as a single un-split frame. -/
def c1RecordS : ScoreRecord :=
  { raw := 0x7e :: c1FrameS, level := "1", label := "name",
    rest := [0, 0, 0, 0, 0, 0, 0, 0, 0, 0x03, 0x61, 0x7e, 0x62, 0x58],
    val_type := "string", value := .str "a~b",
    mid_chunk := [0, 0, 0, 0, 0, 0, 0, 0, 0] }

/-- The record obtained by decoding the two pieces of `c1FrameS`
concatenated without the separating start marker. -/
def c1RecordAB : ScoreRecord :=
  { raw := 0x7e :: (c1FrameA ++ c1FrameB), level := "1", label := "name",
    rest := [0, 0, 0, 0, 0, 0, 0, 0, 0, 0x03, 0x61, 0x62, 0x58],
    val_type := "string", value := .str "abX",
    mid_chunk := [0, 0, 0, 0, 0, 0, 0, 0, 0] }

/-- A candidate frame with a trailing end marker whose single identifier
byte `0xFF` is not valid UTF-8. -/
def c2Frame : List Byte := [0x01, 0xff, 0x7b]

/-- A name frame for level 1 with value `"A"`. -/
def nameFrameA : List Byte :=
  [0x05, 0x31, 0x6e, 0x61, 0x6d, 0x65, 0, 0, 0, 0, 0, 0, 0, 0, 0, 0x01, 0x41, 0x7b]

/-- A second name frame for level 1 with value `"B"`. -/
def nameFrameB : List Byte :=
  [0x05, 0x31, 0x6e, 0x61, 0x6d, 0x65, 0, 0, 0, 0, 0, 0, 0, 0, 0, 0x01, 0x42, 0x7b]

/-- The record obtained by decoding `nameFrameA`. -/
def nameRecordA : ScoreRecord :=
  { raw := 0x7e :: nameFrameA, level := "1", label := "name",
    rest := [0, 0, 0, 0, 0, 0, 0, 0, 0, 0x01, 0x41],
    val_type := "string", value := .str "A",
    mid_chunk := [0, 0, 0, 0, 0, 0, 0, 0, 0] }

/-- The record obtained by decoding `nameFrameB`. -/
def nameRecordB : ScoreRecord :=
  { raw := 0x7e :: nameFrameB, level := "1", label := "name",
    rest := [0, 0, 0, 0, 0, 0, 0, 0, 0, 0x01, 0x42],
    val_type := "string", value := .str "B",
    mid_chunk := [0, 0, 0, 0, 0, 0, 0, 0, 0] }

/-- A name frame whose declared string length byte (5) disagrees with the
two value bytes `"ab"` that precede the end marker. -/
def c4Frame : List Byte :=
  [0x05, 0x31, 0x6e, 0x61, 0x6d, 0x65, 0, 0, 0, 0, 0, 0, 0, 0, 0, 0x05, 0x61, 0x62, 0x7b]

/-- A frame whose identifier `"12"` consists only of decimal digits. -/
def c5Frame : List Byte := [0x02, 0x31, 0x32, 0x7b]

/-- The record obtained by decoding `c5Frame`. -/
def c5Record : ScoreRecord :=
  { raw := 0x7e :: c5Frame, level := "1", label := "2", rest := [],
    val_type := "int", value := .int 0, mid_chunk := [] }

/-- A record with level `"10"` used to build a store in non-numeric id
order. -/
def c6Record10 : ScoreRecord :=
  ⟨[], "10", "seconds", [], "float", .float 0, []⟩

/-- A record with level `"2"` used to build a store in non-numeric id
order. -/
def c6Record2 : ScoreRecord :=
  ⟨[], "2", "seconds", [], "float", .float 0, []⟩

/-- A store built by inserting level `"10"` before level `"2"`. -/
def c6Store : Scores :=
  (Scores.add_record (Scores.add_record ⟨[]⟩ c6Record10).1 c6Record2).1

/-- A successfully decodable frame (identifier `"3s"`, empty rest) whose
diagnostic segment lengths sum to more than `len(raw)`. -/
def c7Frame : List Byte := [0x02, 0x33, 0x73, 0x7b]

/-- The concrete frame named by claim C8: identifier length byte `0x07`,
identifier text `"3seconds"`, 9 filler bytes (zero here), little-endian
float bytes for 12.5, end marker. -/
def c8Frame : List Byte :=
  [0x07, 0x33, 0x73, 0x65, 0x63, 0x6f, 0x6e, 0x64, 0x73,
   0, 0, 0, 0, 0, 0, 0, 0, 0, 0x00, 0x00, 0x48, 0x41, 0x7b]

/-! Helper lemmas -/

/-- Every successful `decodeValue` result carries the marker-prefixed raw
bytes and the level/label it was given. -/
theorem decodeValue_ok_fields {raw0 : List Byte} {lv lb : String} {rest : List Byte}
    {r : ScoreRecord} (h : decodeValue raw0 lv lb rest = .ok r) :
    r.raw = 0x7e :: raw0 ∧ r.level = lv ∧ r.label = lb := by
  unfold decodeValue at h
  split at h
  · split at h
    · cases h; exact ⟨rfl, rfl, rfl⟩
    · cases h
  · split at h
    · split at h
      · cases h
      · split at h
        · cases h
        · split at h
          · cases h
          · cases h; exact ⟨rfl, rfl, rfl⟩
    · split at h
      · split at h
        · cases h
        · cases h; exact ⟨rfl, rfl, rfl⟩
      · cases h; exact ⟨rfl, rfl, rfl⟩

/-- Inversion of a successful decode: the stripped frame starts with an
identifier-length byte, the identifier is nonempty valid UTF-8, and the
level and label of the record arise from the digit-run split of the identifier. -/
theorem scoreRecordInit_ok_inv {raw0 : List Byte} {r : ScoreRecord}
    (h : scoreRecordInit raw0 = .ok r) :
    ∃ n tail chars, rstripBrace raw0 = n :: tail
      ∧ utf8DecodeChars (tail.take n) = some chars ∧ chars ≠ []
      ∧ r.raw = 0x7e :: raw0
      ∧ r.level = String.mk (chars.take (pyDigitRunIdx chars))
      ∧ r.label = String.mk (chars.drop (pyDigitRunIdx chars)) := by
  unfold scoreRecordInit at h
  split at h
  · cases h
  · unfold decodeStripped at h
    split at h
    · cases h
    · rename_i n tail heq
      split at h
      · cases h
      · rename_i chars hchars
        split at h
        · cases h
        · rename_i hne
          obtain ⟨hraw, hlv, hlb⟩ := decodeValue_ok_fields h
          exact ⟨n, tail, chars, heq, hchars, hne, hraw, hlv, hlb⟩

/-- For a nonempty all-digit identifier, the Python loop leaves `i` at the
last index, `length - 1`. -/
theorem pyDigitRunIdx_of_all_digit : ∀ (cs : List Char), cs ≠ [] →
    (∀ c ∈ cs, c.isDigit = true) → pyDigitRunIdx cs = cs.length - 1
  | [], h, _ => absurd rfl h
  | [_], _, _ => rfl
  | c :: c2 :: t, _, hall => by
    have hc : c.isDigit = true := hall c (by simp)
    have ih := pyDigitRunIdx_of_all_digit (c2 :: t) (by simp)
      (fun x hx => hall x (List.mem_cons_of_mem c hx))
    simp only [pyDigitRunIdx, hc, if_true, ih]
    simp

/-- When the identifier contains a non-digit character, the Python loop
index realizes the leading-maximal-digit-run split. -/
theorem pyDigitRunIdx_take_drop : ∀ (cs : List Char),
    (∃ c ∈ cs, ¬ c.isDigit = true) →
    cs.take (pyDigitRunIdx cs) = cs.takeWhile Char.isDigit
    ∧ cs.drop (pyDigitRunIdx cs) = cs.dropWhile Char.isDigit
  | [], h => absurd h (by simp)
  | c :: t, h => by
    by_cases hc : c.isDigit = true
    · have ht : ∃ x ∈ t, ¬ x.isDigit = true := by
        obtain ⟨x, hx, hxd⟩ := h
        rcases List.mem_cons.mp hx with hxc | hxt
        · exact absurd (hxc ▸ hc) hxd
        · exact ⟨x, hxt, hxd⟩
      have htne : t ≠ [] := by
        rintro rfl
        obtain ⟨x, hx, _⟩ := ht
        exact absurd hx (by simp)
      obtain ⟨c2, t2, rfl⟩ := List.exists_cons_of_ne_nil htne
      have ih := pyDigitRunIdx_take_drop (c2 :: t2) ht
      constructor
      · simp only [pyDigitRunIdx, hc, if_true, List.take_succ_cons, List.takeWhile_cons, ih.1]
      · simp only [pyDigitRunIdx, hc, if_true, List.drop_succ_cons, List.dropWhile_cons, ih.2]
    · have h0 : pyDigitRunIdx (c :: t) = 0 := by
        cases t
        · rfl
        · simp [pyDigitRunIdx, hc]
      constructor
      · simp [h0, List.takeWhile_cons, hc]
      · simp [h0, List.dropWhile_cons, hc]

/-- Stripping end markers from a frame made only of end markers leaves
nothing. -/
theorem rstripBrace_replicate (n : Nat) : rstripBrace (List.replicate n 0x7b) = [] := by
  unfold rstripBrace
  rw [List.reverse_replicate]
  have hdrop : (List.replicate n (0x7b : Nat)).dropWhile (fun b => b == 0x7b) = [] := by
    induction n with
    | zero => rfl
    | succ k ih => simp [List.replicate_succ, List.dropWhile_cons, ih]
  rw [hdrop]
  rfl

/-! Claim theorems -/

/-- C2, counterexample.  The claim says a non-UTF-8 identifier in a frame
with a trailing end marker produces an error that is NOT caught by the
resynchronization path and does NOT cause the frame to be buffered.  On the
concrete frame `[0x01, 0xFF, 0x7B]` the decode raises
`UnicodeDecodeError`, which is a `ValueError` subclass, so the handler
`except ValueError` of the main loop catches it: the run does not abort and the
frame ends up in the resynchronization buffer. -/
theorem c2_counterexample :
    scoreRecordInit c2Frame = .error .unicodeDecodeError
    ∧ PyError.isValueError .unicodeDecodeError = true
    ∧ processFrames [c2Frame] initState = .ok ⟨c2Frame, ⟨[]⟩⟩ :=
  ⟨rfl, rfl, rfl⟩

/-- C2, amended claim: for every candidate frame with a trailing end
marker whose identifier bytes are not valid UTF-8, decoding fails with
`UnicodeDecodeError`; since that exception is a `ValueError` subclass it
IS caught by the resynchronization handler, and the frame IS buffered (to
be merged with the next frame). -/
theorem c2_amended (frame : List Byte) (n : Nat) (tail : List Byte) (sc : Scores)
    (h1 : rstripBrace frame ≠ frame) (h2 : rstripBrace frame = n :: tail)
    (h3 : utf8DecodeChars (tail.take n) = none) :
    scoreRecordInit frame = .error .unicodeDecodeError
    ∧ PyError.isValueError .unicodeDecodeError = true
    ∧ mainStep ⟨[], sc⟩ frame = .ok ⟨frame, sc⟩ := by
  have hd : scoreRecordInit frame = .error .unicodeDecodeError := by
    unfold scoreRecordInit
    rw [if_neg h1, h2]
    simp only [decodeStripped, h3]
  refine ⟨hd, rfl, ?_⟩
  unfold mainStep
  simp only [List.isEmpty_nil, if_true, hd, PyError.isValueError, List.nil_append]

/-- C2, witness for the amended claim at the concrete frame
`[0x01, 0xFF, 0x7B]`. -/
theorem c2_amended_witness :
    scoreRecordInit [0x01, 0xff, 0x7b] = .error .unicodeDecodeError
    ∧ PyError.isValueError .unicodeDecodeError = true
    ∧ mainStep ⟨[], ⟨[]⟩⟩ [0x01, 0xff, 0x7b] = .ok ⟨[0x01, 0xff, 0x7b], ⟨[]⟩⟩ :=
  c2_amended [0x01, 0xff, 0x7b] 1 [0xff] ⟨[]⟩ (by decide) (by decide) (by decide)

/-- C3.  Adding a second name record to a level does raise the
duplicate-name `ValueError`, but that error does not propagate to the top
of the pass: the `except ValueError` handler of the main loop catches it,
buffers the bytes of the frame as if it were a truncated record, and the level
is left holding the second name record in its score list (with the first
name value still designated).  The claim that the error is unconditionally
fatal and that the state does not keep the second record is refuted by
this concrete run. -/
theorem c3_duplicate_name_swallowed :
    ((scoreRecordInit nameFrameA).toOption.bind (fun r1 =>
        (scoreRecordInit nameFrameB).toOption.map (fun r2 =>
          ((Level.ofRecord r1).add_record r2).2)))
      = some (some (.valueError duplicateNameMsg))
    ∧ processFrames [nameFrameA, nameFrameB] initState
      = .ok ⟨nameFrameB,
             ⟨[("1", { id := "1",
                       scores := [nameRecordA, nameRecordB],
                       name := some (.str "A") })]⟩⟩ :=
  ⟨rfl, rfl⟩

/-- C4.  On a name frame whose declared length byte disagrees with the
decoded string, the code attempts to print a warning through an f-string
that references the misspelt variable `lenvalue`, raising a `NameError`
instead: decoding the concrete mismatching frame raises rather than
returning a record, and the error is not a `ValueError`, so the whole run
aborts. -/
theorem c4_mismatch_crashes :
    scoreRecordInit c4Frame = .error .nameError
    ∧ PyError.isValueError .nameError = false
    ∧ processFrames [c4Frame] initState = .error .nameError :=
  ⟨rfl, rfl, rfl⟩

/-- C5, counterexample.  For the all-digit identifier `"12"` the claim
predicts `level = "12"` and `label = ""`; the code produces `level = "1"`
and `label = "2"` because the digit-run loop ends with its index at the
last position rather than past it. -/
theorem c5_counterexample :
    (scoreRecordInit c5Frame).toOption.map (fun r => (r.level, r.label))
      = some ("1", "2")
    ∧ (("1", "2") : String × String) ≠ ("12", "") := by
  exact ⟨rfl, by decide⟩

/-- C5, amended claim: for every successfully decoded frame, when the
identifier contains at least one non-digit character, `level` is the
leading maximal run of decimal digits and `label` the remainder; when the
identifier consists entirely of decimal digits, `level` is all but the
last character and `label` is the final digit (not `level` = whole
identifier, `label` = empty as claimed). -/
theorem c5_amended (raw0 : List Byte) (r : ScoreRecord)
    (h : scoreRecordInit raw0 = .ok r) :
    ∃ n tail chars, rstripBrace raw0 = n :: tail
      ∧ utf8DecodeChars (tail.take n) = some chars ∧ chars ≠ []
      ∧ ((∃ c ∈ chars, ¬ c.isDigit = true) →
          r.level = String.mk (chars.takeWhile Char.isDigit)
          ∧ r.label = String.mk (chars.dropWhile Char.isDigit))
      ∧ ((∀ c ∈ chars, c.isDigit = true) →
          r.level = String.mk (chars.take (chars.length - 1))
          ∧ r.label = String.mk (chars.drop (chars.length - 1))) := by
  obtain ⟨n, tail, chars, h1, h2, h3, _, hlv, hlb⟩ := scoreRecordInit_ok_inv h
  refine ⟨n, tail, chars, h1, h2, h3, fun hex => ?_, fun hall => ?_⟩
  · exact ⟨by rw [hlv, (pyDigitRunIdx_take_drop chars hex).1],
           by rw [hlb, (pyDigitRunIdx_take_drop chars hex).2]⟩
  · exact ⟨by rw [hlv, pyDigitRunIdx_of_all_digit chars h3 hall],
           by rw [hlb, pyDigitRunIdx_of_all_digit chars h3 hall]⟩

/-- C5, witness for the amended claim at the all-digit frame `c5Frame`. -/
theorem c5_amended_witness :
    ∃ n tail chars, rstripBrace c5Frame = n :: tail
      ∧ utf8DecodeChars (tail.take n) = some chars ∧ chars ≠ []
      ∧ ((∃ c ∈ chars, ¬ c.isDigit = true) →
          c5Record.level = String.mk (chars.takeWhile Char.isDigit)
          ∧ c5Record.label = String.mk (chars.dropWhile Char.isDigit))
      ∧ ((∀ c ∈ chars, c.isDigit = true) →
          c5Record.level = String.mk (chars.take (chars.length - 1))
          ∧ c5Record.label = String.mk (chars.drop (chars.length - 1))) :=
  c5_amended c5Frame c5Record rfl

/-- C7, counterexample.  The record decoded from `c7Frame` is successful,
yet its diagnostic segment lengths sum to 9 while `len(raw)` is 5: when
the fixed segments already over-account the raw bytes, no unaccounted
segment is appended and the total exceeds `len(raw)`. -/
theorem c7_counterexample :
    (scoreRecordInit c7Frame).toOption.map
        (fun r => (r.detailSegLens.sum, r.raw.length))
      = some (9, 5)
    ∧ (9 : Nat) ≠ 5 :=
  ⟨rfl, by decide⟩

/-- C7, amended claim: for every successfully decoded record whose fixed
segments account for at most `len(raw)` bytes, the diagnostic segment
lengths (including the unaccounted segment when appended) sum exactly to
`len(raw)`; when the fixed segments over-account, the sum exceeds
`len(raw)` instead. -/
theorem c7_amended (raw0 : List Byte) (r : ScoreRecord)
    (_hdec : scoreRecordInit raw0 = .ok r)
    (hle : r.accountedFor ≤ r.raw.length) :
    r.detailSegLens.sum = r.raw.length := by
  unfold ScoreRecord.detailSegLens
  by_cases hlt : r.accountedFor < r.raw.length
  · rw [if_pos hlt]
    unfold ScoreRecord.accountedFor at hlt ⊢
    simp only [List.sum_append, List.sum_cons, List.sum_nil]
    omega
  · rw [if_neg hlt]
    unfold ScoreRecord.accountedFor at hlt hle
    simp only [List.sum_append, List.sum_cons, List.sum_nil]
    omega

/-- C7, witness for the amended claim at the name frame `nameFrameA`,
whose record accounts for 10 of the 19 raw bytes. -/
theorem c7_amended_witness :
    nameRecordA.accountedFor ≤ nameRecordA.raw.length
    ∧ nameRecordA.detailSegLens.sum = nameRecordA.raw.length :=
  ⟨by decide, c7_amended nameFrameA nameRecordA rfl (by decide)⟩

/-- C9.  A nonempty candidate frame consisting only of end-marker bytes
strips to the empty sequence, so reading the identifier-length byte raises
`IndexError`; that error is not a `ValueError`, the resynchronization
handler does not catch it, and the whole run aborts. -/
theorem c9_end_marker_frames (n : Nat) :
    scoreRecordInit (List.replicate (n + 1) 0x7b) = .error .indexError
    ∧ PyError.isValueError .indexError = false
    ∧ processFrames [List.replicate (n + 1) 0x7b] initState = .error .indexError := by
  have h1 : scoreRecordInit (List.replicate (n + 1) 0x7b) = .error .indexError := by
    unfold scoreRecordInit
    rw [rstripBrace_replicate]
    rw [if_neg (by simp [List.replicate_succ])]
    rfl
  refine ⟨h1, rfl, ?_⟩
  unfold processFrames mainStep initState
  simp only [List.isEmpty_nil, if_true, h1, PyError.isValueError]
  rfl

/-- C10.  A candidate frame with a trailing end marker whose
identifier-length byte is 0 decodes an empty identifier, so the digit-run
loop body never runs and the level/label split raises the unbound-variable
`NameError`, which is not a `ValueError` and escapes the decoder
uncaught. -/
theorem c10_empty_identifier (frame tail : List Byte)
    (h1 : rstripBrace frame ≠ frame) (h2 : rstripBrace frame = 0 :: tail) :
    scoreRecordInit frame = .error .nameError
    ∧ PyError.isValueError .nameError = false := by
  refine ⟨?_, rfl⟩
  unfold scoreRecordInit
  rw [if_neg h1, h2]
  rfl

/-- C10, witness at the concrete frame `[0x00, 0x7B]`. -/
theorem c10_empty_identifier_witness :
    scoreRecordInit [0x00, 0x7b] = .error .nameError
    ∧ PyError.isValueError .nameError = false :=
  c10_empty_identifier [0x00, 0x7b] [] (by decide) (by decide)

/-- C1, counterexample.  Decoding `c1FrameS` as a single un-split frame
yields a name record with value `"a~b"` (the `0x7E` byte is part of the
string), but running the resynchronizing main loop on the two split
pieces emits a record with value `"abX"`: the dropped start-marker byte
shifts the value window, so the merged record is not equal in every field
to the un-split decode. -/
theorem c1_counterexample :
    (scoreRecordInit c1FrameS).toOption.map (fun r => r.value)
      = some (Value.str "a~b")
    ∧ (processFrames [c1FrameA, c1FrameB] initState).toOption.map
        (fun st => st.scores.levels.map (fun p => p.2.scores.map (fun r => r.value)))
      = some [[Value.str "abX"]]
    ∧ Value.str "a~b" ≠ Value.str "abX" :=
  ⟨rfl, rfl, by decide⟩

/-- C1, amended claim: when a byte sequence that decodes as a single
record is split at an embedded start-marker byte into two pieces, the
first of which fails to decode with the recoverable `ValueError`, the
Resynchronizer emits the ScoreRecord obtained by decoding the
concatenation of the two pieces — the embedded start marker is dropped,
not reinserted — and that record always differs from the record obtained
by decoding the same bytes as a single un-split frame (at minimum, the
raw bytes are one shorter; the value can shift as well). -/
theorem c1_amended (S A B : List Byte) (msg : String) (rS r : ScoreRecord)
    (hsplit : S = A ++ 0x7e :: B)
    (hS : scoreRecordInit S = .ok rS)
    (hA : scoreRecordInit A = .error (.valueError msg))
    (hAB : scoreRecordInit (A ++ B) = .ok r) :
    processFrames [A, B] initState = .ok ⟨[], ⟨[(r.level, Level.ofRecord r)]⟩⟩
    ∧ r ≠ rS := by
  constructor
  · have hstep1 : mainStep initState A = .ok ⟨A, ⟨[]⟩⟩ := by
      unfold mainStep initState
      simp only [List.isEmpty_nil, if_true, hA, PyError.isValueError, List.nil_append]
    have hraw2 : (if A.isEmpty then B else A ++ B) = A ++ B := by
      cases A <;> simp
    have hstep2 : mainStep ⟨A, ⟨[]⟩⟩ B = .ok ⟨[], ⟨[(r.level, Level.ofRecord r)]⟩⟩ := by
      unfold mainStep
      simp only [hraw2, hAB]
      rfl
    simp only [processFrames, hstep1, hstep2]
  · intro hEq
    obtain ⟨_, _, _, _, _, _, hraw, _, _⟩ := scoreRecordInit_ok_inv hAB
    obtain ⟨_, _, _, _, _, _, hrawS, _, _⟩ := scoreRecordInit_ok_inv hS
    have hlen : r.raw.length = rS.raw.length := by rw [hEq]
    rw [hraw, hrawS, hsplit] at hlen
    simp only [List.length_cons, List.length_append] at hlen
    omega

/-- C1, witness for the amended claim at the concrete split of
`c1FrameS`. -/
theorem c1_amended_witness :
    processFrames [c1FrameA, c1FrameB] initState
      = .ok ⟨[], ⟨[(c1RecordAB.level, Level.ofRecord c1RecordAB)]⟩⟩
    ∧ c1RecordAB ≠ c1RecordS :=
  c1_amended c1FrameS c1FrameA c1FrameB incompleteMsg c1RecordS c1RecordAB
    rfl rfl rfl rfl

/-- C6.  For every store whose level ids all parse as integers,
`get_levels` succeeds and returns the levels in ascending order of the
integer value of the level id, whatever the insertion order was. -/
theorem c6_levels_sorted (s : Scores)
    (h : ∀ p ∈ s.levels, (pyInt p.2.id).isSome = true) :
    ∃ ls, s.get_levels = .ok ls ∧ ls.Pairwise (fun a b => levelLe a b = true) := by
  have hall : (s.levels.map Prod.snd).all (fun lv => (pyInt lv.id).isSome) = true := by
    rw [List.all_eq_true]
    intro lv hlv
    obtain ⟨p, hp, rfl⟩ := List.mem_map.mp hlv
    exact h p hp
  have htrans : ∀ a b c : Level, levelLe a b → levelLe b c → levelLe a c := by
    intro a b c hab hbc
    simp only [levelLe, decide_eq_true_eq] at *
    omega
  have htotal : ∀ a b : Level, levelLe a b || levelLe b a := by
    intro a b
    simp only [levelLe, Bool.or_eq_true, decide_eq_true_eq]
    omega
  refine ⟨(s.levels.map Prod.snd).mergeSort levelLe, ?_, ?_⟩
  · unfold Scores.get_levels Scores.sorted_levels
    rw [if_pos hall]
  · exact List.sorted_mergeSort htrans htotal (s.levels.map Prod.snd)

/-- C6, witness: inserting level `"10"` before level `"2"` still yields a
sorted result. -/
theorem c6_levels_sorted_witness :
    (∀ p ∈ c6Store.levels, (pyInt p.2.id).isSome = true)
    ∧ ∃ ls, c6Store.get_levels = .ok ls
        ∧ ls.Pairwise (fun a b => levelLe a b = true) :=
  ⟨by decide, c6_levels_sorted c6Store (by decide)⟩

/-- C8, counterexample.  The frame literally described by the claim
declares an identifier length of 7, so only `"3second"` is read as the
identifier: the decoded record has label `"second"` (not `"seconds"`) and
its value is the unsigned 32-bit integer 1095237632, not the float 12.5. -/
theorem c8_counterexample :
    (scoreRecordInit c8Frame).toOption.map (fun r => (r.level, r.label, r.value))
      = some ("3", "second", Value.int 1095237632)
    ∧ ("second" : String) ≠ "seconds" :=
  ⟨rfl, by decide⟩

/-- C8, amended claim: with the identifier length byte corrected to
`0x08` (the byte length of `"3seconds"`), for any 9 filler bytes the
frame decodes to `level = "3"`, `label = "seconds"`, and the float whose
32 bits come from the little-endian tail `00 00 48 41`, which is the
IEEE-754 binary32 value 12.5. -/
theorem c8_amended (b0 b1 b2 b3 b4 b5 b6 b7 b8 : Nat) :
    ∃ r, scoreRecordInit [0x08, 0x33, 0x73, 0x65, 0x63, 0x6f, 0x6e, 0x64, 0x73,
        b0, b1, b2, b3, b4, b5, b6, b7, b8, 0x00, 0x00, 0x48, 0x41, 0x7b] = .ok r
      ∧ r.level = "3" ∧ r.label = "seconds"
      ∧ r.value = .float 0x41480000
      ∧ f32ValOfBits 0x41480000 = some ((25 : ℚ) / 2) := by
  have hstr : rstripBrace [0x08, 0x33, 0x73, 0x65, 0x63, 0x6f, 0x6e, 0x64, 0x73,
        b0, b1, b2, b3, b4, b5, b6, b7, b8, 0x00, 0x00, 0x48, 0x41, 0x7b]
      = [0x08, 0x33, 0x73, 0x65, 0x63, 0x6f, 0x6e, 0x64, 0x73,
        b0, b1, b2, b3, b4, b5, b6, b7, b8, 0x00, 0x00, 0x48, 0x41] := rfl
  unfold scoreRecordInit
  rw [hstr]
  rw [if_neg (fun hcontra => by
    have hl := congrArg List.length hcontra
    simp at hl)]
  exact ⟨_, rfl, rfl, rfl, rfl, by norm_num [f32ValOfBits]⟩

end Dusk
